import Mathlib

/-!
Shallow embedding of `file.go` from the go-logging repository: the rotating
file log backend (`FileBackend`).  Pure data and control flow are translated
directly; filesystem and OS interactions (stat, rename, file creation, the
current wall clock) are represented by an explicit `World` record that the
embedded operations consult, with injected `Option String` errors standing
for the fallible OS calls.  Panics are modelled as `Option`/`none` results.
-/

namespace GoLogging

/-- Calendar time, as far as the backend inspects it: `time.Time.Day()` and
the `"2006-01-02"` format string (year-month-day). -/
structure Time where
  year : Int
  month : Int
  day : Int
deriving DecidableEq

/-- Result of an `os.Lstat`: the fields of `os.FileInfo` that `file.go`
reads. -/
structure FileInfo where
  modTime : Time
  isDir : Bool
  size : Int
deriving DecidableEq

/-- The `FileBackend` struct of `file.go`.  `status` is the int8 status flag
(0 = close, 1 = run); `hasAsync` models `asyncMsgChan != nil` (the channel
pair is created together).  The `fileWriter` descriptor itself is not a
field here: operations on it appear as effects in the operation results. -/
structure FileBackend where
  status : Nat
  Filename : String
  MaxLines : Int
  maxLinesCurLines : Int
  MaxSize : Int
  maxSizeCurSize : Int
  Daily : Bool
  MaxDays : Int
  dailyOpenDate : Int
  Rotate : Bool
  Perm : Nat
  fileNameOnly : String
  suffix : String
  hasAsync : Bool
deriving DecidableEq

/-- The needRotate method of `file.go`:
`(w.MaxLines > 0 && w.maxLinesCurLines >= w.MaxLines) ||
 (w.MaxSize > 0 && w.maxSizeCurSize >= w.MaxSize) ||
 (w.Daily && day != w.dailyOpenDate)`.
The `size` parameter is bound but never read by the body, exactly as in the
source. -/
def needRotate (w : FileBackend) (size : Int) (day : Int) : Bool :=
  decide ((w.MaxLines > 0 ∧ w.maxLinesCurLines ≥ w.MaxLines) ∨
    (w.MaxSize > 0 ∧ w.maxSizeCurSize ≥ w.MaxSize) ∨
    (w.Daily = true ∧ day ≠ w.dailyOpenDate))

/-- C1: needRotate returns true iff (max lines > 0 and line counter at or
past max lines) or (max size > 0 and accumulated byte counter at or past
max size) or (daily rotation on and the current day differs from the day
the active file was opened); and the incoming-size argument is ignored:
the result is the same for any two sizes. -/
theorem needRotate_spec (w : FileBackend) (size size2 day : Int) :
    (needRotate w size day = true ↔
      ((w.MaxLines > 0 ∧ w.maxLinesCurLines ≥ w.MaxLines) ∨
       (w.MaxSize > 0 ∧ w.maxSizeCurSize ≥ w.MaxSize) ∨
       (w.Daily = true ∧ day ≠ w.dailyOpenDate))) ∧
    needRotate w size day = needRotate w size2 day := by
  constructor
  · exact decide_eq_true_iff
  · rfl

/-- Concrete instantiation of needRotate_spec. -/
theorem needRotate_spec_witness :
    (needRotate
      { status := 1, Filename := "app.log", MaxLines := 3, maxLinesCurLines := 3,
        MaxSize := 0, maxSizeCurSize := 0, Daily := false, MaxDays := 7,
        dailyOpenDate := 10, Rotate := true, Perm := 432,
        fileNameOnly := "app", suffix := ".log", hasAsync := false } 5 10 = true ↔
      (((3:Int) > 0 ∧ (3:Int) ≥ 3) ∨ ((0:Int) > 0 ∧ (0:Int) ≥ 0) ∨
        (false = true ∧ (10:Int) ≠ 10))) ∧
    needRotate
      { status := 1, Filename := "app.log", MaxLines := 3, maxLinesCurLines := 3,
        MaxSize := 0, maxSizeCurSize := 0, Daily := false, MaxDays := 7,
        dailyOpenDate := 10, Rotate := true, Perm := 432,
        fileNameOnly := "app", suffix := ".log", hasAsync := false } 5 10 =
    needRotate
      { status := 1, Filename := "app.log", MaxLines := 3, maxLinesCurLines := 3,
        MaxSize := 0, maxSizeCurSize := 0, Daily := false, MaxDays := 7,
        dailyOpenDate := 10, Rotate := true, Perm := 432,
        fileNameOnly := "app", suffix := ".log", hasAsync := false } 999 10 :=
  needRotate_spec _ 5 999 10

/-- The write method of `file.go`.  A message is a byte slice, modelled as a
list of byte values.  The underlying `fileWriter.Write` call may fail; its
outcome is injected as `writeErr` (`none` = success).  On success the line
counter is incremented by one and the byte counter by `len(msg)`; on failure
the counters are untouched and the error is the one reported to stderr.
The returned `Option String` is the reported diagnostic (none = no error),
and there is exactly one underlying write attempt per call. -/
def write (w : FileBackend) (msg : List Nat) (writeErr : Option String) :
    FileBackend × Option String :=
  match writeErr with
  | none =>
      ({ w with maxLinesCurLines := w.maxLinesCurLines + 1,
                maxSizeCurSize := w.maxSizeCurSize + (msg.length : Int) }, none)
  | some e => (w, some e)

/-- C4: write either succeeds, incrementing the line counter by exactly 1
and the byte counter by exactly the message length while reporting no
error, or fails, leaving the whole backend state exactly as it was and
reporting the underlying error (a single attempt, no retry). -/
theorem write_counter_spec (w : FileBackend) (msg : List Nat) :
    ((write w msg none).1.maxLinesCurLines = w.maxLinesCurLines + 1 ∧
     (write w msg none).1.maxSizeCurSize = w.maxSizeCurSize + (msg.length : Int) ∧
     (write w msg none).2 = none) ∧
    (∀ e : String, (write w msg (some e)).1 = w ∧ (write w msg (some e)).2 = some e) := by
  refine ⟨⟨rfl, rfl, rfl⟩, fun e => ⟨rfl, rfl⟩⟩

/-- Concrete instantiation of write_counter_spec. -/
theorem write_counter_spec_witness :
    (write
      { status := 1, Filename := "app.log", MaxLines := 0, maxLinesCurLines := 4,
        MaxSize := 0, maxSizeCurSize := 9, Daily := false, MaxDays := 7,
        dailyOpenDate := 10, Rotate := true, Perm := 432,
        fileNameOnly := "app", suffix := ".log", hasAsync := false }
      [104, 105, 10] none).1.maxLinesCurLines = 4 + 1 ∧
    (write
      { status := 1, Filename := "app.log", MaxLines := 0, maxLinesCurLines := 4,
        MaxSize := 0, maxSizeCurSize := 9, Daily := false, MaxDays := 7,
        dailyOpenDate := 10, Rotate := true, Perm := 432,
        fileNameOnly := "app", suffix := ".log", hasAsync := false }
      [104, 105, 10] (some "disk full")).1.maxSizeCurSize = 9 := by
  refine ⟨(write_counter_spec _ [104, 105, 10]).1.1, ?_⟩
  have h := ((write_counter_spec
    { status := 1, Filename := "app.log", MaxLines := 0, maxLinesCurLines := 4,
      MaxSize := 0, maxSizeCurSize := 9, Daily := false, MaxDays := 7,
      dailyOpenDate := 10, Rotate := true, Perm := 432,
      fileNameOnly := "app", suffix := ".log", hasAsync := false }
    [104, 105, 10]).2 "disk full").1
  rw [h]

/-- ASCII digit test, the `[0-9]` character class of `colorRegexp`. -/
def isDigit (b : Nat) : Bool :=
  decide (48 ≤ b ∧ b ≤ 57)

/-- The effect of `colorRegexp.ReplaceAll(msg, [])` in the Log method, where
`colorRegexp = regexp.MustCompile("\x1b\\[[0-9]{1,2}m")`: scan the bytes
left to right; at each position, if the bytes start with ESC (27), then
`[` (91), then one digit and `m` (109), or two digits and `m`, drop that
whole match and continue after it; otherwise keep the byte and continue at
the next position. -/
def stripColor : List Nat → List Nat
  | [] => []
  | b :: rest =>
    if b = 27 then
      match rest with
      | c :: d1 :: rest3 =>
        if c = 91 ∧ isDigit d1 = true then
          match rest3 with
          | e1 :: rest4 =>
            if e1 = 109 then stripColor rest4
            else if isDigit e1 = true then
              match rest4 with
              | e2 :: rest5 =>
                if e2 = 109 then stripColor rest5
                else b :: stripColor (c :: d1 :: e1 :: e2 :: rest5)
              | [] => b :: stripColor [c, d1, e1]
            else b :: stripColor (c :: d1 :: e1 :: rest4)
          | [] => b :: stripColor [c, d1]
        else b :: stripColor (c :: d1 :: rest3)
      | r2 => b :: stripColor r2
    else b :: stripColor rest
  termination_by l => l.length
  decreasing_by
    all_goals simp [List.length_cons]
    all_goals omega

/-- The message preparation in the Log method after the status check: strip
color escapes, then read `msg[len(msg)-1]` and append a newline (10) when
the last byte is not a newline.  The index expression has no emptiness
guard, so an empty stripped message is an out-of-bounds access: that panic
is modelled as `none`. -/
def logPrepared (rendered : List Nat) : Option (List Nat) :=
  let msg := stripColor rendered
  match msg.getLast? with
  | none => none
  | some b => if b ≠ 10 then some (msg ++ [10]) else some msg

/-- The Log method of `file.go`, restricted to its message pipeline: under
the shared status lock, return immediately when status is 0 (modelled as
`none`, nothing processed); otherwise produce the prepared message
(`some (some msg)`), or `some none` when preparing the message panics on
the unguarded last-byte index. -/
def Log (w : FileBackend) (rendered : List Nat) : Option (Option (List Nat)) :=
  if w.status = 0 then none else some (logPrepared rendered)

/-- A byte string matched by `colorRegexp`: ESC `[`, one or two ASCII
digits, `m`. -/
def isColorSeq (l : List Nat) : Prop :=
  ∃ d1, (48 ≤ d1 ∧ d1 ≤ 57) ∧
    (l = [27, 91, d1, 109] ∨
      ∃ d2, (48 ≤ d2 ∧ d2 ≤ 57) ∧ l = [27, 91, d1, d2, 109])

theorem stripColor_match_head (esc rest : List Nat) (h : isColorSeq esc) :
    stripColor (esc ++ rest) = stripColor rest := by
  obtain ⟨d1, hd1, hcase⟩ := h
  have hdig1 : isDigit d1 = true := by simp [isDigit]; omega
  rcases hcase with hone | ⟨d2, hd2, htwo⟩
  · subst hone
    rw [stripColor.eq_def]
    simp [hdig1]
  · subst htwo
    have hne : ¬ d2 = 109 := by omega
    have hdig2 : isDigit d2 = true := by simp [isDigit]; omega
    rw [stripColor.eq_def]
    simp [hdig1, hdig2, hne]

theorem stripColor_no_match (b : Nat) (rest : List Nat)
    (h : ∀ esc rest2, isColorSeq esc → b :: rest ≠ esc ++ rest2) :
    stripColor (b :: rest) = b :: stripColor rest := by
  by_cases hb : b = 27
  · subst hb
    match rest with
    | [] => rw [stripColor.eq_def]; simp
    | [c] => rw [stripColor.eq_def]; simp
    | c :: d1 :: rest3 =>
      by_cases hc : c = 91 ∧ isDigit d1 = true
      · obtain ⟨hc91, hd1⟩ := hc
        subst hc91
        have hd1n : 48 ≤ d1 ∧ d1 ≤ 57 := of_decide_eq_true hd1
        match rest3 with
        | [] => rw [stripColor.eq_def]; simp [hd1]
        | e1 :: rest4 =>
          by_cases he1 : e1 = 109
          · exfalso
            apply h [27, 91, d1, 109] rest4 ⟨d1, hd1n, Or.inl rfl⟩
            subst he1
            rfl
          · by_cases hde1 : isDigit e1 = true
            · have he1n : 48 ≤ e1 ∧ e1 ≤ 57 := of_decide_eq_true hde1
              match rest4 with
              | [] => rw [stripColor.eq_def]; simp [hd1, he1, hde1]
              | e2 :: rest5 =>
                by_cases he2 : e2 = 109
                · exfalso
                  apply h [27, 91, d1, e1, 109] rest5 ⟨d1, hd1n, Or.inr ⟨e1, he1n, rfl⟩⟩
                  subst he2
                  rfl
                · rw [stripColor.eq_def]; simp [hd1, he1, hde1, he2]
            · rw [stripColor.eq_def]; simp [hd1, he1, hde1]
      · rw [stripColor.eq_def]; simp [hc]
  · rw [stripColor.eq_def]; simp [hb]

/-- C6: the Log pipeline removes the color escapes exactly as the regular
expression replacement does (a match at the current position is dropped
whole, a position where no match starts keeps its byte), and for every
record whose stripped bytes are non-empty, the dispatched message is the
stripped bytes with a newline appended exactly when they do not already end
in a newline. -/
theorem log_strips_color_and_terminates (w : FileBackend) (rendered : List Nat)
    (hw : ¬ w.status = 0) :
    (∀ esc rest, isColorSeq esc → stripColor (esc ++ rest) = stripColor rest) ∧
    (∀ b rest, (∀ esc rest2, isColorSeq esc → b :: rest ≠ esc ++ rest2) →
      stripColor (b :: rest) = b :: stripColor rest) ∧
    (stripColor rendered ≠ [] →
      Log w rendered = some (some
        (if (stripColor rendered).getLast? = some 10 then stripColor rendered
         else stripColor rendered ++ [10]))) := by
  refine ⟨stripColor_match_head, stripColor_no_match, fun hne => ?_⟩
  unfold Log logPrepared
  rw [if_neg hw]
  cases hlast : (stripColor rendered).getLast? with
  | none => exact absurd (List.getLast?_eq_none_iff.mp hlast) hne
  | some b =>
    simp only [hlast]
    by_cases h10 : b = 10
    · subst h10
      simp
    · simp [h10, Ne.symm h10]

/-- Concrete instantiation of log_strips_color_and_terminates: the rendered
bytes ESC `[` `3` `1` `m` `h` `i` become `h` `i` newline. -/
theorem log_strips_color_and_terminates_witness :
    Log
      { status := 1, Filename := "app.log", MaxLines := 0, maxLinesCurLines := 0,
        MaxSize := 0, maxSizeCurSize := 0, Daily := false, MaxDays := 7,
        dailyOpenDate := 10, Rotate := true, Perm := 432,
        fileNameOnly := "app", suffix := ".log", hasAsync := false }
      [27, 91, 51, 49, 109, 104, 105] = some (some [104, 105, 10]) := by
  have h := (log_strips_color_and_terminates
    { status := 1, Filename := "app.log", MaxLines := 0, maxLinesCurLines := 0,
      MaxSize := 0, maxSizeCurSize := 0, Daily := false, MaxDays := 7,
      dailyOpenDate := 10, Rotate := true, Perm := 432,
      fileNameOnly := "app", suffix := ".log", hasAsync := false }
    [27, 91, 51, 49, 109, 104, 105] (by decide)).2.2
    (by simp [stripColor, isDigit])
  rw [h]
  simp [stripColor, isDigit]

/-- C8: while Running, Log reads the last byte of the stripped message with
no emptiness guard, so it completes in bounds exactly when the stripped
bytes are non-empty, and panics (modelled `some none`) exactly when the
rendered record is empty after color stripping, for instance when it
consists only of color escapes. -/
theorem log_last_byte_access (w : FileBackend) (rendered : List Nat)
    (hw : ¬ w.status = 0) :
    (stripColor rendered = [] → Log w rendered = some none) ∧
    (stripColor rendered ≠ [] → ∃ m, Log w rendered = some (some m)) := by
  constructor
  · intro hempty
    unfold Log logPrepared
    rw [if_neg hw]
    simp [hempty]
  · intro hne
    unfold Log logPrepared
    rw [if_neg hw]
    cases hlast : (stripColor rendered).getLast? with
    | none => exact absurd (List.getLast?_eq_none_iff.mp hlast) hne
    | some b =>
      simp only [hlast]
      by_cases h10 : b = 10
      · subst h10
        exact ⟨stripColor rendered, by simp⟩
      · exact ⟨stripColor rendered ++ [10], by simp [h10]⟩

/-- Concrete instantiation of log_last_byte_access: a record that renders
to a single color escape panics; a one-byte record does not. -/
theorem log_last_byte_access_witness :
    Log
      { status := 1, Filename := "app.log", MaxLines := 0, maxLinesCurLines := 0,
        MaxSize := 0, maxSizeCurSize := 0, Daily := false, MaxDays := 7,
        dailyOpenDate := 10, Rotate := true, Perm := 432,
        fileNameOnly := "app", suffix := ".log", hasAsync := false }
      [27, 91, 49, 109] = some none ∧
    ∃ m, Log
      { status := 1, Filename := "app.log", MaxLines := 0, maxLinesCurLines := 0,
        MaxSize := 0, maxSizeCurSize := 0, Daily := false, MaxDays := 7,
        dailyOpenDate := 10, Rotate := true, Perm := 432,
        fileNameOnly := "app", suffix := ".log", hasAsync := false }
      [104] = some (some m) := by
  constructor
  · exact (log_last_byte_access _ [27, 91, 49, 109] (by decide)).1
      (by simp [stripColor, isDigit])
  · exact (log_last_byte_access _ [104] (by decide)).2
      (by simp [stripColor])

/-- Side effects of the Close method, in program order: signal the async
consumer, drain the queue, sync the descriptor, close the descriptor. -/
inductive CloseEffect where
  | signalStop
  | drainQueue
  | syncFile
  | closeFile
deriving DecidableEq

/-- The Close method of `file.go`: under the status lock, if status is
already 0 return immediately (no effects); otherwise set status to 0, then
signal and drain the async channel when present, then sync and close the
file writer.  The effect list records the side effects performed. -/
def Close (w : FileBackend) : FileBackend × List CloseEffect :=
  if w.status = 0 then (w, [])
  else ({ w with status := 0 },
    (if w.hasAsync then [CloseEffect.signalStop, CloseEffect.drainQueue] else []) ++
      [CloseEffect.syncFile, CloseEffect.closeFile])

/-- C7: a first Close from the Running state sets status to Closed and
performs the sync and close side effects (plus the drain when async mode is
on), and any later Close on the resulting state returns immediately with no
effects and no state change, so the side effects are never repeated. -/
theorem close_idempotent (w : FileBackend) (h : w.status = 1) :
    ((Close w).1.status = 0 ∧
     CloseEffect.syncFile ∈ (Close w).2 ∧
     CloseEffect.closeFile ∈ (Close w).2 ∧
     (w.hasAsync = true → CloseEffect.drainQueue ∈ (Close w).2)) ∧
    Close (Close w).1 = ((Close w).1, []) := by
  have hne : ¬ w.status = 0 := by omega
  refine ⟨⟨?_, ?_, ?_, ?_⟩, ?_⟩
  · simp [Close, hne]
  · simp [Close, hne]
  · simp [Close, hne]
  · intro ha
    simp [Close, hne, ha]
  · simp [Close, hne]

/-- Concrete instantiation of close_idempotent on a running async backend. -/
theorem close_idempotent_witness :
    (Close (Close
      { status := 1, Filename := "app.log", MaxLines := 0, maxLinesCurLines := 0,
        MaxSize := 0, maxSizeCurSize := 0, Daily := false, MaxDays := 7,
        dailyOpenDate := 10, Rotate := true, Perm := 432,
        fileNameOnly := "app", suffix := ".log", hasAsync := true }).1).2 = [] := by
  have h := (close_idempotent
    { status := 1, Filename := "app.log", MaxLines := 0, maxLinesCurLines := 0,
      MaxSize := 0, maxSizeCurSize := 0, Daily := false, MaxDays := 7,
      dailyOpenDate := 10, Rotate := true, Perm := 432,
      fileNameOnly := "app", suffix := ".log", hasAsync := true } rfl).2
  rw [h]

/-- Go `strings.HasPrefix`. -/
def goHasPrefix (s pre : String) : Bool :=
  pre.toList.isPrefixOf s.toList

/-- Go `strings.HasSuffix`. -/
def goHasSuffix (s suf : String) : Bool :=
  suf.toList.reverse.isPrefixOf s.toList.reverse

/-- Go `strings.TrimSuffix`: drop the suffix when present, else return the
string unchanged. -/
def trimSuffixStr (s suf : String) : String :=
  if goHasSuffix s suf = true then
    String.mk (s.toList.take (s.toList.length - suf.toList.length))
  else s

/-- Scan of `filepath.Ext` over the reversed characters: walk backwards
from the end; a dot yields the extension (dot included), a path separator
or the start of the string yields nothing. -/
def extAux : List Char → List Char → Option (List Char)
  | [], _ => none
  | c :: rest, acc =>
    if c = '.' then some ('.' :: acc)
    else if c = '/' then none
    else extAux rest (c :: acc)

/-- Go `filepath.Ext`: the suffix of the final slash-separated element
beginning at its final dot; empty when the element has no dot. -/
def filepathExt (p : String) : String :=
  match extAux p.toList.reverse [] with
  | some l => String.mk l
  | none => ""

/-- The filesystem and clock environment the backend runs against.  `lstat`
answers `os.Lstat`/`Stat` existence queries; the `Option String` fields
inject the outcomes of the fallible OS calls made by `createLogFile`
(`createErr`), `fd.Stat` inside initFd (`statErr`), the startup line count
(`linesErr`), and `os.Rename` (`renameErr`); `fileSize` and `lineCount`
are the stat size and counted lines of the just-opened active file,
`nowDay` and `nowUnix` the current clock readings. -/
structure World where
  lstat : String → Option FileInfo
  nowDay : Int
  nowUnix : Int
  createErr : Option String
  statErr : Option String
  fileSize : Int
  lineCount : Int
  linesErr : Option String
  renameErr : Option String

/-- The initFd method of `file.go`: stat the fresh descriptor (failure is
wrapped as a get-stat error), set the byte counter to the file size, the
opened day to the current day, and the line counter to 0, then when the
file is non-empty count its lines (failure returned as is) and store the
count. -/
def initFd (world : World) (w : FileBackend) : FileBackend × Option String :=
  match world.statErr with
  | some e => (w, some ("get stat err: " ++ e ++ "\n"))
  | none =>
    let w1 := { w with maxSizeCurSize := world.fileSize,
                       dailyOpenDate := world.nowDay,
                       maxLinesCurLines := 0 }
    if world.fileSize > 0 then
      match world.linesErr with
      | some e => (w1, some e)
      | none => ({ w1 with maxLinesCurLines := world.lineCount }, none)
    else (w1, none)

/-- The startLogger method of `file.go`: create/open the log file (failure
returned as is, state untouched), swap in the new descriptor, run initFd,
and only when initFd succeeded set status to 1 (and start the async
consumer when the channel exists). -/
def startLogger (world : World) (w : FileBackend) : FileBackend × Option String :=
  match world.createErr with
  | some e => (w, some e)
  | none =>
    let p := initFd world w
    match p.2 with
    | none => ({ p.1 with status := 1 }, none)
    | some e => (p.1, some e)

/-- The pure configuration part of NewDefaultFileBackend, after the
empty-filename check and before startLogger: the defaults
MaxLines 1000000, MaxSize `1 << 28`, Daily, MaxDays 7, Rotate, Perm 0660,
the async channels when the first variadic capacity is positive, and the
derived suffix (defaulting to ".log") and base name. -/
def configureBackend (filename : String) (asyncLen : List Int) : FileBackend :=
  let hasAsync : Bool :=
    match asyncLen with
    | a :: _ => decide (a > 0)
    | [] => false
  let suffix0 := filepathExt filename
  let nameOnly := trimSuffixStr filename suffix0
  let suffix1 := if suffix0 = "" then ".log" else suffix0
  { status := 0, Filename := filename, MaxLines := 1000000,
    maxLinesCurLines := 0, MaxSize := 2 ^ 28, maxSizeCurSize := 0,
    Daily := true, MaxDays := 7, dailyOpenDate := 0, Rotate := true,
    Perm := 0o660, fileNameOnly := nameOnly, suffix := suffix1,
    hasAsync := hasAsync }

/-- NewDefaultFileBackend of `file.go`: an empty filename returns a nil
backend and an error; otherwise the configured backend is built, the
parent directory ensured (a side effect with no bearing on the result) and
startLogger run, and the backend pointer is returned together with
startLogger's error, non-nil in both the success and the failure case. -/
def NewDefaultFileBackend (world : World) (filename : String)
    (asyncLen : List Int) : Option FileBackend × Option String :=
  if filename.length = 0 then (none, some "FileBackend must have filename")
  else
    let p := startLogger world (configureBackend filename asyncLen)
    (some p.1, p.2)

theorem startLogger_preserves_config (world : World) (w : FileBackend) :
    (startLogger world w).1.Filename = w.Filename ∧
    (startLogger world w).1.MaxLines = w.MaxLines ∧
    (startLogger world w).1.MaxSize = w.MaxSize ∧
    (startLogger world w).1.Daily = w.Daily ∧
    (startLogger world w).1.MaxDays = w.MaxDays ∧
    (startLogger world w).1.Rotate = w.Rotate ∧
    (startLogger world w).1.Perm = w.Perm ∧
    (startLogger world w).1.hasAsync = w.hasAsync ∧
    (startLogger world w).1.fileNameOnly = w.fileNameOnly ∧
    (startLogger world w).1.suffix = w.suffix := by
  unfold startLogger initFd
  cases world.createErr with
  | some e => simp
  | none =>
    cases world.statErr with
    | some e => simp
    | none =>
      by_cases hs : world.fileSize > 0
      · cases world.linesErr with
        | some e => simp [hs]
        | none => simp [hs]
      · simp [hs]

/-- C9: with a non-empty filename, the constructed backend carries the
fixed defaults MaxLines 1000000, MaxSize 2^28 bytes, Daily, MaxDays 7,
Rotate, Perm 0660 (432 decimal), and its async channels exist exactly when
a first variadic capacity argument greater than 0 was supplied. -/
theorem newDefault_config (world : World) (filename : String)
    (asyncLen : List Int) (h : filename.length ≠ 0) :
    ∃ b, (NewDefaultFileBackend world filename asyncLen).1 = some b ∧
      b.MaxLines = 1000000 ∧ b.MaxSize = 2 ^ 28 ∧ b.Daily = true ∧
      b.MaxDays = 7 ∧ b.Rotate = true ∧ b.Perm = 0o660 ∧
      (b.hasAsync = true ↔ ∃ a rest, asyncLen = a :: rest ∧ a > 0) := by
  refine ⟨(startLogger world (configureBackend filename asyncLen)).1, ?_, ?_⟩
  · unfold NewDefaultFileBackend
    rw [if_neg h]
  · have hp := startLogger_preserves_config world (configureBackend filename asyncLen)
    obtain ⟨h1, h2, h3, h4, h5, h6, h7, h8, h9, h10⟩ := hp
    refine ⟨?_, ?_, ?_, ?_, ?_, ?_, ?_⟩
    · rw [h2]; rfl
    · rw [h3]; rfl
    · rw [h4]; rfl
    · rw [h5]; rfl
    · rw [h6]; rfl
    · rw [h7]; rfl
    · rw [h8]
      cases asyncLen with
      | nil => simp [configureBackend]
      | cons a rest =>
        simp only [configureBackend]
        constructor
        · intro ha
          exact ⟨a, rest, rfl, of_decide_eq_true ha⟩
        · rintro ⟨a2, rest2, heq, hpos⟩
          cases heq
          exact decide_eq_true hpos

/-- Concrete instantiation of newDefault_config. -/
theorem newDefault_config_witness :
    ∃ b, (NewDefaultFileBackend
      { lstat := fun _ => none, nowDay := 10, nowUnix := 1000,
        createErr := none, statErr := none, fileSize := 0, lineCount := 0,
        linesErr := none, renameErr := none } "app.log" [3]).1 = some b ∧
      b.MaxLines = 1000000 ∧ b.MaxSize = 2 ^ 28 ∧ b.Daily = true ∧
      b.MaxDays = 7 ∧ b.Rotate = true ∧ b.Perm = 0o660 ∧
      (b.hasAsync = true ↔ ∃ a rest, ([3] : List Int) = a :: rest ∧ a > 0) :=
  newDefault_config
    { lstat := fun _ => none, nowDay := 10, nowUnix := 1000,
      createErr := none, statErr := none, fileSize := 0, lineCount := 0,
      linesErr := none, renameErr := none } "app.log" [3] (by decide)

/-- C10: an empty filename yields a nil backend with an error, and a
non-empty filename always yields a non-nil backend pointer, in particular
returned together with the error whenever startLogger failed. -/
theorem newDefault_error_paths (world : World) (filename : String)
    (asyncLen : List Int) :
    (filename.length = 0 →
      NewDefaultFileBackend world filename asyncLen =
        (none, some "FileBackend must have filename")) ∧
    (filename.length ≠ 0 →
      (NewDefaultFileBackend world filename asyncLen).1.isSome = true) ∧
    (∀ e, filename.length ≠ 0 →
      (startLogger world (configureBackend filename asyncLen)).2 = some e →
      ∃ b, NewDefaultFileBackend world filename asyncLen = (some b, some e)) := by
  refine ⟨fun h0 => ?_, fun hne => ?_, fun e hne herr => ?_⟩
  · unfold NewDefaultFileBackend
    rw [if_pos h0]
  · unfold NewDefaultFileBackend
    rw [if_neg hne]
    rfl
  · refine ⟨(startLogger world (configureBackend filename asyncLen)).1, ?_⟩
    unfold NewDefaultFileBackend
    rw [if_neg hne]
    simp [herr]

/-- Concrete instantiation of newDefault_error_paths: the file cannot be
created, and the backend pointer is still returned with the error. -/
theorem newDefault_error_paths_witness :
    ∃ b, NewDefaultFileBackend
      { lstat := fun _ => none, nowDay := 10, nowUnix := 1000,
        createErr := some "permission denied", statErr := none,
        fileSize := 0, lineCount := 0, linesErr := none,
        renameErr := none } "app.log" [] = (some b, some "permission denied") :=
  (newDefault_error_paths
    { lstat := fun _ => none, nowDay := 10, nowUnix := 1000,
      createErr := some "permission denied", statErr := none,
      fileSize := 0, lineCount := 0, linesErr := none,
      renameErr := none } "app.log" []).2.2 "permission denied" (by decide) rfl

/-- Zero padding, as in fmt's `%03d` and the `2006-01-02` layout. -/
def padNum (width : Nat) (n : Nat) : String :=
  let s := toString n
  String.mk (List.replicate (width - s.length) '0') ++ s

/-- The Go time layout `"2006-01-02"`: four-digit year, two-digit month,
two-digit day, dash separated. -/
def formatDate (t : Time) : String :=
  padNum 4 t.year.toNat ++ "-" ++ padNum 2 t.month.toNat ++ "-" ++
    padNum 2 t.day.toNat

/-- Candidate archive name probed by doRotate:
`w.fileNameOnly + fmt.Sprintf(".%s.%03d%s", modTime.Format("2006-01-02"), num, w.suffix)`. -/
def archiveName (w : FileBackend) (t : Time) (num : Nat) : String :=
  w.fileNameOnly ++ "." ++ formatDate t ++ "." ++ padNum 3 num ++ w.suffix

/-- The maxFileIndex constant of `file.go`. -/
def maxFileIndex : Nat := 999

/-- The probe loop of doRotate over a list of candidate indices: walk the
indices in order, Lstat each candidate name, and stop at the first name
that does not exist (`none` when every candidate exists). -/
def probeList (ex : String → Bool) (mk : Nat → String) : List Nat → Option String
  | [] => none
  | n :: rest =>
    let fName := mk n
    if ex fName = true then probeList ex mk rest else some fName

/-- The doRotate probe over indices 1 through maxFileIndex. -/
def findFreeName (ex : String → Bool) (mk : Nat → String) : Option String :=
  probeList ex mk (List.range' 1 maxFileIndex)

/-- Side effects of doRotate once a free archive name was found, in program
order: close the descriptor, rename the active file, restart the logger,
spawn the retention sweep goroutine. -/
inductive RotEffect where
  | closeFd
  | renameFile (target : String)
  | restartLogger
  | spawnDeleteOldLog
deriving DecidableEq

/-- Result of a doRotate call: the backend state afterwards, the archive
name the rename step used (none when rotation failed before renaming), the
side effects performed, and the returned error. -/
structure RotateOutcome where
  backend : FileBackend
  renamedTo : Option String
  effects : List RotEffect
  error : Option String
deriving DecidableEq

/-- The doRotate method of `file.go`: require the active file to exist;
pick the date stamp (the active file's modification time when daily
rotation is on and the record's day differs from the opened day, else the
record's time); probe `<base>.<date>.<NNN><suffix>` for NNN from 1 up to
maxFileIndex and fail when every index exists; then close the descriptor,
rename (its failure recorded in the world), restart the logger regardless,
spawn the retention sweep, and return the restart error first, else the
rename error, else nil.  The source calls `os.Lstat(w.Filename)` a second
time inside the daily branch; against a pure `lstat` snapshot that call
returns the same `some info` as the first, so its error branch is dead and
the modification time is read off the first result. -/
def doRotate (world : World) (w : FileBackend) (logTime : Time) : RotateOutcome :=
  match world.lstat w.Filename with
  | none =>
    { backend := w, renamedTo := none, effects := [],
      error := some ("lstat " ++ w.Filename ++ ": no such file or directory") }
  | some info =>
    match findFreeName (fun p => (world.lstat p).isSome)
        (archiveName w (if w.Daily = true ∧ logTime.day ≠ w.dailyOpenDate
          then info.modTime else logTime)) with
    | none =>
      { backend := w, renamedTo := none, effects := [],
        error := some
          ("Rotate: Cannot find free log number to rename " ++ w.Filename ++ "\n") }
    | some fName =>
      { backend := (startLogger world w).1,
        renamedTo := some fName,
        effects := [RotEffect.closeFd, RotEffect.renameFile fName,
                    RotEffect.restartLogger, RotEffect.spawnDeleteOldLog],
        error :=
          match (startLogger world w).2 with
          | some e => some ("Rotate StartLogger: " ++ e ++ "\n")
          | none =>
            match world.renameErr with
            | some e => some ("Rotate: " ++ e ++ "\n")
            | none => none }

theorem probeList_all_taken (ex : String → Bool) (mk : Nat → String) :
    ∀ L : List Nat, (∀ n ∈ L, ex (mk n) = true) → probeList ex mk L = none := by
  intro L
  induction L with
  | nil => intro _; rfl
  | cons n rest ih =>
    intro h
    have hn := h n (List.mem_cons_self n rest)
    simp only [probeList, hn, if_pos]
    exact ih fun m hm => h m (List.mem_cons_of_mem n hm)

theorem probeList_first_free (ex : String → Bool) (mk : Nat → String) :
    ∀ len s n : Nat, s ≤ n → n < s + len →
      (∀ m, s ≤ m → m < n → ex (mk m) = true) → ex (mk n) = false →
      probeList ex mk (List.range' s len) = some (mk n) := by
  intro len
  induction len with
  | zero => intro s n h1 h2 _ _; omega
  | succ len ih =>
    intro s n h1 h2 hprev hfree
    rw [List.range'_succ]
    by_cases hsn : n = s
    · subst hsn
      simp [probeList, hfree]
    · have hs : ex (mk s) = true := hprev s le_rfl (by omega)
      simp only [probeList, hs, if_pos]
      exact ih (s + 1) n (by omega) (by omega)
        (fun m hm1 hm2 => hprev m (by omega) hm2) hfree

/-- C2: when the active file exists, the date stamp is the file's on-disk
modification time when daily rotation is on and the record's day differs
from the opened day and otherwise the record's time; the probed archive
name is `<base>.<date>.<NNN><suffix>` with NNN the least index from 1 whose
name does not exist on disk, and when every index 1 through 999 exists the
rotation fails with the archive-exhaustion error and nothing is renamed. -/
theorem doRotate_archive_name (world : World) (w : FileBackend) (t : Time)
    (info : FileInfo) (stamp : Time) (n : Nat)
    (hfile : world.lstat w.Filename = some info)
    (hstamp : stamp = if w.Daily = true ∧ t.day ≠ w.dailyOpenDate
      then info.modTime else t) :
    (1 ≤ n → n ≤ 999 →
      (world.lstat (archiveName w stamp n)).isSome = false →
      (∀ m, 1 ≤ m → m < n → (world.lstat (archiveName w stamp m)).isSome = true) →
      (doRotate world w t).renamedTo = some (archiveName w stamp n)) ∧
    ((∀ m, 1 ≤ m → m ≤ 999 → (world.lstat (archiveName w stamp m)).isSome = true) →
      (doRotate world w t).renamedTo = none ∧
      (doRotate world w t).error = some
        ("Rotate: Cannot find free log number to rename " ++ w.Filename ++ "\n")) := by
  constructor
  · intro h1 h999 hfree hprev
    have hp := probeList_first_free (fun p => (world.lstat p).isSome)
      (archiveName w stamp) 999 1 n h1 (by omega)
      (fun m hm1 hm2 => hprev m hm1 hm2) hfree
    unfold doRotate findFreeName maxFileIndex
    rw [hfile]
    simp only [← hstamp, hp]
  · intro hall
    have hp := probeList_all_taken (fun p => (world.lstat p).isSome)
      (archiveName w stamp) (List.range' 1 999)
      (fun m hm => hall m (List.mem_range'_1.mp hm).1
        (by have := (List.mem_range'_1.mp hm).2; omega))
    unfold doRotate findFreeName maxFileIndex
    rw [hfile]
    constructor
    · simp only [← hstamp, hp]
    · simp only [← hstamp, hp]

/-- Concrete instantiation of doRotate_archive_name: the first probe is
free and the archive name has the date-stamped zero-padded form. -/
theorem doRotate_archive_name_witness :
    (doRotate
      { lstat := fun p => if p = "app.log"
          then some { modTime := { year := 2026, month := 10, day := 9 },
                      isDir := false, size := 5 }
          else none,
        nowDay := 10, nowUnix := 1000, createErr := none, statErr := none,
        fileSize := 0, lineCount := 0, linesErr := none, renameErr := none }
      { status := 1, Filename := "app.log", MaxLines := 0, maxLinesCurLines := 0,
        MaxSize := 0, maxSizeCurSize := 0, Daily := true, MaxDays := 7,
        dailyOpenDate := 9, Rotate := true, Perm := 432,
        fileNameOnly := "app", suffix := ".log", hasAsync := false }
      { year := 2026, month := 10, day := 10 }).renamedTo =
      some (archiveName
        { status := 1, Filename := "app.log", MaxLines := 0, maxLinesCurLines := 0,
          MaxSize := 0, maxSizeCurSize := 0, Daily := true, MaxDays := 7,
          dailyOpenDate := 9, Rotate := true, Perm := 432,
          fileNameOnly := "app", suffix := ".log", hasAsync := false }
        { year := 2026, month := 10, day := 9 } 1) ∧
    archiveName
      { status := 1, Filename := "app.log", MaxLines := 0, maxLinesCurLines := 0,
        MaxSize := 0, maxSizeCurSize := 0, Daily := true, MaxDays := 7,
        dailyOpenDate := 9, Rotate := true, Perm := 432,
        fileNameOnly := "app", suffix := ".log", hasAsync := false }
      { year := 2026, month := 10, day := 9 } 1 = "app.2026-10-09.001.log" := by
  constructor
  · exact (doRotate_archive_name _ _ _
      { modTime := { year := 2026, month := 10, day := 9 }, isDir := false, size := 5 }
      { year := 2026, month := 10, day := 9 } 1 (by decide) (by decide)).1
      (by decide) (by decide) (by decide) (fun m hm1 hm2 => by omega)
  · decide

/-- C3 counterexample: a rotation where both the rename and the restart of
the logger fail returns the restart (reopen) error, not the rename error,
contradicting the claim that the rename error is the one returned when
both occur. -/
theorem doRotate_error_priority_counterexample :
    (doRotate
      { lstat := fun p => if p = "app.log"
          then some { modTime := { year := 2026, month := 10, day := 10 },
                      isDir := false, size := 5 }
          else none,
        nowDay := 10, nowUnix := 1000, createErr := some "open failed",
        statErr := none, fileSize := 0, lineCount := 0, linesErr := none,
        renameErr := some "rename failed" }
      { status := 1, Filename := "app.log", MaxLines := 0, maxLinesCurLines := 0,
        MaxSize := 0, maxSizeCurSize := 0, Daily := false, MaxDays := 7,
        dailyOpenDate := 10, Rotate := true, Perm := 432,
        fileNameOnly := "app", suffix := ".log", hasAsync := false }
      { year := 2026, month := 10, day := 10 }).error =
      some "Rotate StartLogger: open failed\n" ∧
    (doRotate
      { lstat := fun p => if p = "app.log"
          then some { modTime := { year := 2026, month := 10, day := 10 },
                      isDir := false, size := 5 }
          else none,
        nowDay := 10, nowUnix := 1000, createErr := some "open failed",
        statErr := none, fileSize := 0, lineCount := 0, linesErr := none,
        renameErr := some "rename failed" }
      { status := 1, Filename := "app.log", MaxLines := 0, maxLinesCurLines := 0,
        MaxSize := 0, maxSizeCurSize := 0, Daily := false, MaxDays := 7,
        dailyOpenDate := 10, Rotate := true, Perm := 432,
        fileNameOnly := "app", suffix := ".log", hasAsync := false }
      { year := 2026, month := 10, day := 10 }).error ≠
      some "Rotate: rename failed\n" := by
  constructor
  · decide
  · decide

/-- C3 (amended): once a free archive name is found, rotation closes the
descriptor, attempts the rename, and restarts the logger at the original
path regardless of whether the rename succeeded, leaving the backend in
the restarted state; the returned error is the restart (reopen) error when
the restart failed — even when the rename failed too — else the rename
error when only the rename failed, else nil. -/
theorem doRotate_reopen_regardless (world : World) (w : FileBackend) (t : Time)
    (fName : String)
    (hrenamed : (doRotate world w t).renamedTo = some fName) :
    (doRotate world w t).effects =
      [RotEffect.closeFd, RotEffect.renameFile fName,
       RotEffect.restartLogger, RotEffect.spawnDeleteOldLog] ∧
    (doRotate world w t).backend = (startLogger world w).1 ∧
    (∀ e, (startLogger world w).2 = some e →
      (doRotate world w t).error = some ("Rotate StartLogger: " ++ e ++ "\n")) ∧
    (∀ e, (startLogger world w).2 = none → world.renameErr = some e →
      (doRotate world w t).error = some ("Rotate: " ++ e ++ "\n")) ∧
    ((startLogger world w).2 = none → world.renameErr = none →
      (doRotate world w t).error = none) := by
  have key : doRotate world w t =
      { backend := (startLogger world w).1, renamedTo := some fName,
        effects := [RotEffect.closeFd, RotEffect.renameFile fName,
                    RotEffect.restartLogger, RotEffect.spawnDeleteOldLog],
        error :=
          match (startLogger world w).2 with
          | some e => some ("Rotate StartLogger: " ++ e ++ "\n")
          | none =>
            match world.renameErr with
            | some e => some ("Rotate: " ++ e ++ "\n")
            | none => none } := by
    unfold doRotate at hrenamed ⊢
    cases hl : world.lstat w.Filename with
    | none =>
      simp [hl] at hrenamed
    | some info =>
      simp only [hl] at hrenamed ⊢
      cases hf : findFreeName (fun p => (world.lstat p).isSome)
          (archiveName w (if w.Daily = true ∧ t.day ≠ w.dailyOpenDate
            then info.modTime else t)) with
      | none =>
        simp [hf] at hrenamed
      | some f =>
        simp only [hf, Option.some.injEq] at hrenamed ⊢
        subst hrenamed
        rfl
  rw [key]
  refine ⟨rfl, rfl, fun e he => ?_, fun e he hr => ?_, fun he hr => ?_⟩
  · simp only [he]
  · simp only [he, hr]
  · simp only [he, hr]

/-- Concrete instantiation of doRotate_reopen_regardless: the rename fails
but the restart succeeds, the backend is restarted, and the rename error
is returned. -/
theorem doRotate_reopen_regardless_witness :
    (doRotate
      { lstat := fun p => if p = "app.log"
          then some { modTime := { year := 2026, month := 10, day := 10 },
                      isDir := false, size := 5 }
          else none,
        nowDay := 10, nowUnix := 1000, createErr := none, statErr := none,
        fileSize := 0, lineCount := 0, linesErr := none,
        renameErr := some "rename failed" }
      { status := 1, Filename := "app.log", MaxLines := 0, maxLinesCurLines := 0,
        MaxSize := 0, maxSizeCurSize := 0, Daily := false, MaxDays := 7,
        dailyOpenDate := 10, Rotate := true, Perm := 432,
        fileNameOnly := "app", suffix := ".log", hasAsync := false }
      { year := 2026, month := 10, day := 10 }).effects =
      [RotEffect.closeFd, RotEffect.renameFile "app.2026-10-10.001.log",
       RotEffect.restartLogger, RotEffect.spawnDeleteOldLog] ∧
    (doRotate
      { lstat := fun p => if p = "app.log"
          then some { modTime := { year := 2026, month := 10, day := 10 },
                      isDir := false, size := 5 }
          else none,
        nowDay := 10, nowUnix := 1000, createErr := none, statErr := none,
        fileSize := 0, lineCount := 0, linesErr := none,
        renameErr := some "rename failed" }
      { status := 1, Filename := "app.log", MaxLines := 0, maxLinesCurLines := 0,
        MaxSize := 0, maxSizeCurSize := 0, Daily := false, MaxDays := 7,
        dailyOpenDate := 10, Rotate := true, Perm := 432,
        fileNameOnly := "app", suffix := ".log", hasAsync := false }
      { year := 2026, month := 10, day := 10 }).error =
      some "Rotate: rename failed\n" := by
  have h := doRotate_reopen_regardless
    { lstat := fun p => if p = "app.log"
        then some { modTime := { year := 2026, month := 10, day := 10 },
                    isDir := false, size := 5 }
        else none,
      nowDay := 10, nowUnix := 1000, createErr := none, statErr := none,
      fileSize := 0, lineCount := 0, linesErr := none,
      renameErr := some "rename failed" }
    { status := 1, Filename := "app.log", MaxLines := 0, maxLinesCurLines := 0,
      MaxSize := 0, maxSizeCurSize := 0, Daily := false, MaxDays := 7,
      dailyOpenDate := 10, Rotate := true, Perm := 432,
      fileNameOnly := "app", suffix := ".log", hasAsync := false }
    { year := 2026, month := 10, day := 10 } "app.2026-10-10.001.log" (by decide)
  exact ⟨h.1, h.2.2.2.1 "rename failed" (by decide) rfl⟩

/-- A directory entry seen by the `filepath.Walk` in deleteOldLog: its
path, whether it is a directory, and its modification time in Unix
seconds. -/
structure DirEntry where
  path : String
  isDir : Bool
  modTimeUnix : Int
deriving DecidableEq

/-- Scan of `filepath.Base` over the reversed characters: collect until a
path separator or the start of the string. -/
def baseAux : List Char → List Char → List Char
  | [], acc => acc
  | c :: rest, acc => if c = '/' then acc else baseAux rest (c :: acc)

/-- Go `filepath.Base` on an ordinary file path: the part after the last
slash. -/
def filepathBase (p : String) : String :=
  String.mk (baseAux p.toList.reverse [])

/-- The walk callback body of deleteOldLog for one entry: the entry is
removed when it is not a directory, its modification time is before
`now - 60*60*24*MaxDays` seconds, and its base name has the backend's base
name as prefix and its suffix as suffix. -/
def walkFnDeletes (w : FileBackend) (nowUnix : Int) (e : DirEntry) : Bool :=
  if e.isDir = false ∧ e.modTimeUnix < nowUnix - 60 * 60 * 24 * w.MaxDays then
    if goHasPrefix (filepathBase e.path) w.fileNameOnly = true ∧
        goHasSuffix (filepathBase e.path) w.suffix = true then true
    else false
  else false

/-- The deleteOldLog walk over the directory listing.  Each entry carries a
flag telling whether handling it panics (as a nil `os.FileInfo` would); the
deferred recover catches the panic, reports the path, and the walk goes on.
Returns the deleted paths and the reported panic paths, in walk order. -/
def deleteOldLogWalk (w : FileBackend) (nowUnix : Int) :
    List (DirEntry × Bool) → List String × List String
  | [] => ([], [])
  | (e, panics) :: rest =>
    let tail := deleteOldLogWalk w nowUnix rest
    if panics = true then (tail.1, e.path :: tail.2)
    else if walkFnDeletes w nowUnix e = true then (e.path :: tail.1, tail.2)
    else tail

/-- C5: the sweep deletes an entry iff it is not a directory, its name has
the base name as prefix and the suffix as suffix, and its modification
time is strictly older than now minus MaxDays days; every entry whose
handling panics is reported instead, and in both cases the remaining
entries are still processed (the deleted and reported sets are computed
entrywise over the whole listing). -/
theorem deleteOldLog_spec (w : FileBackend) (nowUnix : Int)
    (entries : List (DirEntry × Bool)) :
    (∀ e : DirEntry, walkFnDeletes w nowUnix e = true ↔
      (e.isDir = false ∧
       e.modTimeUnix < nowUnix - 60 * 60 * 24 * w.MaxDays ∧
       w.fileNameOnly.toList <+: (filepathBase e.path).toList ∧
       w.suffix.toList <:+ (filepathBase e.path).toList)) ∧
    (deleteOldLogWalk w nowUnix entries).1 =
      (entries.filter fun p => !p.2 && walkFnDeletes w nowUnix p.1).map
        (fun p => p.1.path) ∧
    (deleteOldLogWalk w nowUnix entries).2 =
      (entries.filter fun p => p.2).map (fun p => p.1.path) := by
  refine ⟨fun e => ?_, ?_, ?_⟩
  · unfold walkFnDeletes
    constructor
    · intro h
      by_cases h1 : e.isDir = false ∧ e.modTimeUnix < nowUnix - 60 * 60 * 24 * w.MaxDays
      · rw [if_pos h1] at h
        by_cases h2 : goHasPrefix (filepathBase e.path) w.fileNameOnly = true ∧
            goHasSuffix (filepathBase e.path) w.suffix = true
        · refine ⟨h1.1, h1.2, ?_, ?_⟩
          · exact List.isPrefixOf_iff_prefix.mp h2.1
          · exact List.reverse_prefix.mp (List.isPrefixOf_iff_prefix.mp h2.2)
        · rw [if_neg h2] at h
          exact absurd h (by simp)
      · rw [if_neg h1] at h
        exact absurd h (by simp)
    · rintro ⟨hdir, hold, hpre, hsuf⟩
      rw [if_pos ⟨hdir, hold⟩, if_pos]
      exact ⟨List.isPrefixOf_iff_prefix.mpr hpre,
        List.isPrefixOf_iff_prefix.mpr (List.reverse_prefix.mpr hsuf)⟩
  · induction entries with
    | nil => rfl
    | cons p rest ih =>
      obtain ⟨e, panics⟩ := p
      by_cases hp : panics = true
      · simp [deleteOldLogWalk, hp, ih]
      · by_cases hd : walkFnDeletes w nowUnix e = true
        · simp [deleteOldLogWalk, hp, hd, ih]
        · simp [deleteOldLogWalk, hp, hd, ih]
  · induction entries with
    | nil => rfl
    | cons p rest ih =>
      obtain ⟨e, panics⟩ := p
      by_cases hp : panics = true
      · simp [deleteOldLogWalk, hp, ih]
      · by_cases hd : walkFnDeletes w nowUnix e = true
        · simp [deleteOldLogWalk, hp, hd, ih]
        · simp [deleteOldLogWalk, hp, hd, ih]

/-- Concrete instantiation of deleteOldLog_spec: a matching 10-day-old
archive is deleted, a matching 1-day-old archive and an unrelated old file
are kept, and a panicking entry is reported while the walk continues past
it. -/
theorem deleteOldLog_spec_witness :
    (deleteOldLogWalk
      { status := 1, Filename := "app.log", MaxLines := 0, maxLinesCurLines := 0,
        MaxSize := 0, maxSizeCurSize := 0, Daily := true, MaxDays := 7,
        dailyOpenDate := 10, Rotate := true, Perm := 432,
        fileNameOnly := "app", suffix := ".log", hasAsync := false }
      864000
      [({ path := "app.2026-09-30.001.log", isDir := false, modTimeUnix := 0 }, false),
       ({ path := "broken", isDir := false, modTimeUnix := 0 }, true),
       ({ path := "other.txt", isDir := false, modTimeUnix := 0 }, false),
       ({ path := "app.2026-10-09.001.log", isDir := false, modTimeUnix := 777600 }, false)]).1 =
      ["app.2026-09-30.001.log"] ∧
    (deleteOldLogWalk
      { status := 1, Filename := "app.log", MaxLines := 0, maxLinesCurLines := 0,
        MaxSize := 0, maxSizeCurSize := 0, Daily := true, MaxDays := 7,
        dailyOpenDate := 10, Rotate := true, Perm := 432,
        fileNameOnly := "app", suffix := ".log", hasAsync := false }
      864000
      [({ path := "app.2026-09-30.001.log", isDir := false, modTimeUnix := 0 }, false),
       ({ path := "broken", isDir := false, modTimeUnix := 0 }, true),
       ({ path := "other.txt", isDir := false, modTimeUnix := 0 }, false),
       ({ path := "app.2026-10-09.001.log", isDir := false, modTimeUnix := 777600 }, false)]).2 =
      ["broken"] := by
  have h := deleteOldLog_spec
    { status := 1, Filename := "app.log", MaxLines := 0, maxLinesCurLines := 0,
      MaxSize := 0, maxSizeCurSize := 0, Daily := true, MaxDays := 7,
      dailyOpenDate := 10, Rotate := true, Perm := 432,
      fileNameOnly := "app", suffix := ".log", hasAsync := false }
    864000
    [({ path := "app.2026-09-30.001.log", isDir := false, modTimeUnix := 0 }, false),
     ({ path := "broken", isDir := false, modTimeUnix := 0 }, true),
     ({ path := "other.txt", isDir := false, modTimeUnix := 0 }, false),
     ({ path := "app.2026-10-09.001.log", isDir := false, modTimeUnix := 777600 }, false)]
  refine ⟨?_, ?_⟩
  · rw [h.2.1]
    decide
  · rw [h.2.2]
    decide

end GoLogging
